import Mathlib

set_option maxRecDepth 16384

/-!
Verification of the vexv5_serial packet codec against its specification.

The development shallowly embeds the packet framing / codec layer of the
vexv5_serial crate: bytes are `Nat` values (machine-integer overflow is made
explicit with `% 2 ^ w` where the source relies on wrapping), byte streams are
`List Nat` consumed from the front, and fallible Rust functions return
`Except DecodeError`.  An end of the input list during a blocking read models
the `std::io::Error` that `read_exact` reports on a closed stream and is
mapped to `DecodeError.IoError`, exactly as the source maps read failures.
-/

namespace VexV5

/-- Decidable equality for `Except`, so that concrete decode results can be
checked by `decide`. -/
instance {ε α : Type} [DecidableEq ε] [DecidableEq α] : DecidableEq (Except ε α) := fun x y =>
  match x, y with
  | .ok a, .ok b =>
    if h : a = b then .isTrue (congrArg Except.ok h)
    else .isFalse (fun hc => h (Except.ok.inj hc))
  | .error a, .error b =>
    if h : a = b then .isTrue (congrArg Except.error h)
    else .isFalse (fun hc => h (Except.error.inj hc))
  | .ok _, .error _ => .isFalse (fun hc => Except.noConfusion hc)
  | .error _, .ok _ => .isFalse (fun hc => Except.noConfusion hc)

/-- Rust slice indexing `l.get(a..b)`: `Some` of the sub-slice when
`a <= b` and `b <= l.len()`, `None` otherwise.  In the source the upper
bound is sometimes computed as `len - 2` in `usize`; when `len < 2` that
subtraction wraps far past `len` in release builds, so `get` returns `None` —
with truncated `Nat` subtraction the bound becomes `0 < a`, so the embedding
returns `none` in exactly the same cases. -/
def sliceGet (l : List Nat) (a b : Nat) : Option (List Nat) :=
  if a ≤ b ∧ b ≤ l.length then some ((l.drop a).take (b - a)) else none

/-- Rust `Vec::resize(n, v)`: truncate or right-pad with `v` to length `n`. -/
def listResize (l : List Nat) (n v : Nat) : List Nat :=
  l.take n ++ List.replicate (n - l.length) v

/-- Little-endian value of a byte list, as produced by
`u16::from_le_bytes` / `u32::from_le_bytes` on slices of the right width. -/
def leValue (l : List Nat) : Nat :=
  l.foldr (fun b acc => b + 256 * acc) 0

/-- Bytes of `u32::to_le_bytes`. -/
def u32_to_le_bytes (n : Nat) : List Nat :=
  [n % 256, n / 256 % 256, n / 65536 % 256, n / 16777216 % 256]

/-- Bytes of `u16::to_le_bytes`. -/
def u16_to_le_bytes (n : Nat) : List Nat :=
  [n % 256, n / 256 % 256]

/-!
CRC16/XMODEM (`VEX_CRC16 = crc::CRC_16_XMODEM` in `src/lib.rs`): polynomial
`0x1021`, initial value `0`, no reflection, no output xor.  The `crc` crate
computes it with a byte table; the table is the standard optimisation of the
bit-by-bit MSB-first algorithm embedded here.
-/

/-- One bit step of the MSB-first CRC16 loop: shift left and, when the top
bit was set, xor in the polynomial, truncated to 16 bits. -/
def crc16Bit (c : Nat) : Nat :=
  if c.testBit 15 then ((c <<< 1) ^^^ 0x1021) % 65536 else (c <<< 1) % 65536

/-- One byte step: xor the byte into the top 8 bits, then run 8 bit steps. -/
def crc16Byte (c b : Nat) : Nat :=
  crc16Bit (crc16Bit (crc16Bit (crc16Bit (crc16Bit (crc16Bit
    (crc16Bit (crc16Bit ((c ^^^ (b <<< 8)) % 65536))))))))

/-- CRC16/XMODEM checksum of a byte list (init 0, xorout 0). -/
def crc16 (data : List Nat) : Nat :=
  data.foldl crc16Byte 0

/-!
Acknowledgement taxonomy, from `src/errors.rs`.
-/

/-- The `VexACKType` enum of `src/errors.rs`: one ACK and the known NACKs. -/
inductive VexACKType where
  | ACK
  | NACKCrcError
  | NACKPayloadShort
  | NACKTransferSizeTooLarge
  | NACKProgramCrcFailed
  | NACKProgramFileError
  | NACKUninitializedTransfer
  | NACKInitializationInvalid
  | NACKLengthNotPaddedTo4
  | NACKAddressNoMatch
  | NACKDownloadLengthNoMatch
  | NACKDirectoryNoExist
  | NACKNoFileRoom
  | NACKFileAlreadyExists
  | NACKGeneral
  deriving DecidableEq

/-- The `DecodeError` enum of `src/errors.rs`.  Payloads that carry only
host-side diagnostics (`std::io::Error`, strings) are dropped; the variants
the codec path distinguishes keep their data. -/
inductive DecodeError where
  | IoError
  | UTF8Error
  | HeaderTimeout
  | ExpectedExtended
  | CrcError
  | PacketLengthError
  | InvalidAck
  | NACK (ack : VexACKType)
  | ExpectedCommand (expected actual : Nat)
  | DeviceError
  | InvalidValue
  deriving DecidableEq

/-- The match of `VexACKType::from_u8` in `src/errors.rs`: note that `0xCF`
and `0xFF` fall to the catch-all arm. -/
def VexACKType.from_u8 (v : Nat) : Except DecodeError VexACKType :=
  match v with
  | 0x76 => .ok .ACK
  | 0xCE => .ok .NACKCrcError
  | 0xD0 => .ok .NACKPayloadShort
  | 0xD1 => .ok .NACKTransferSizeTooLarge
  | 0xD2 => .ok .NACKProgramCrcFailed
  | 0xD3 => .ok .NACKProgramFileError
  | 0xD4 => .ok .NACKUninitializedTransfer
  | 0xD5 => .ok .NACKInitializationInvalid
  | 0xD6 => .ok .NACKLengthNotPaddedTo4
  | 0xD7 => .ok .NACKAddressNoMatch
  | 0xD8 => .ok .NACKDownloadLengthNoMatch
  | 0xD9 => .ok .NACKDirectoryNoExist
  | 0xDA => .ok .NACKNoFileRoom
  | 0xDB => .ok .NACKFileAlreadyExists
  | _ => .error .InvalidAck

/-!
Decode-check bitflags, from `src/checks.rs`.
-/

namespace VexExtPacketChecks

/-- Bit for the ACK check. -/
def ACK : Nat := 1

/-- Bit for the CRC check. -/
def CRC : Nat := 2

/-- Bit for the length check. -/
def LENGTH : Nat := 4

/-- All checks enabled. -/
def ALL : Nat := ACK ||| CRC ||| LENGTH

/-- The bitflags `contains` test. -/
def contains (checks flag : Nat) : Bool := checks &&& flag == flag

end VexExtPacketChecks

/-!
Simple packets, from `src/commands/simple.rs`.
-/

/-- The `SimpleResponse` of `src/commands/simple.rs`: command byte, payload,
and the entire received packet (used by the extended decoder for the CRC). -/
structure SimpleResponse where
  command : Nat
  payload : List Nat
  packet : List Nat
  deriving DecidableEq

/-- `Simple::encode_request`: host sync magic, command byte, raw payload. -/
def Simple.encode_request (command : Nat) (payload : List Nat) : List Nat :=
  [0xc9, 0x36, 0xb8, 0x47, command] ++ payload

/-- The `expected_header` array `[0xAA, 0x55]` of the response framer,
indexed by the rolling match index (which only ever holds 0 or 1). -/
def expected_header : Nat → Nat
  | 0 => 0xAA
  | _ => 0x55

/-- The header-scan loop of `Simple::decode_stream`: read one byte at a
time; on a match advance the index, on a mismatch reset it to 0 (the
mismatching byte is consumed and not re-examined).  Returns the rest of the
stream once the index reaches 2, or `none` when the input is exhausted
first (read failure / timeout in the source). -/
def syncScan : List Nat → Nat → Option (List Nat)
  | s, i =>
    if 2 ≤ i then some s
    else
      match s with
      | [] => none
      | b :: rest => syncScan rest (if b = expected_header i then i + 1 else 0)

/-- Rust `read_exact` into an `n`-byte buffer: the first `n` bytes and the
rest of the stream, or `none` when fewer than `n` bytes remain. -/
def readExact (n : Nat) (s : List Nat) : Option (List Nat × List Nat) :=
  if n ≤ s.length then some (s.take n, s.drop n) else none

/-- `Simple::decode_stream` (`src/commands/simple.rs` lines 32-118): scan for
the `AA 55` response sync, read the command and length bytes, read a second
length byte when the command is `0x56` and the high bit of the first length
byte is set, then read exactly `length` payload bytes. -/
def Simple.decode_stream (stream : List Nat) : Except DecodeError SimpleResponse :=
  match syncScan stream 0 with
  | none => .error .IoError
  | some (command :: lb :: s2) =>
    if command = 0x56 ∧ lb &&& 0x80 = 0x80 then
      match s2 with
      | [] => .error .IoError
      | bl :: s3 =>
        match readExact (((lb &&& 0x7f) <<< 8) ||| bl) s3 with
        | none => .error .IoError
        | some (payload, _) =>
          .ok ⟨command, payload, [0xAA, 0x55, command, lb, bl] ++ payload⟩
    else
      match readExact lb s2 with
      | none => .error .IoError
      | some (payload, _) =>
        .ok ⟨command, payload, [0xAA, 0x55, command, lb] ++ payload⟩
  | some _ => .error .IoError

/-!
Extended packets, from `src/commands/extended.rs`.
-/

/-- The `ExtendedResponse` of `src/commands/extended.rs`. -/
structure ExtendedResponse where
  command_id : Nat
  payload : List Nat
  deriving DecidableEq

/-- The length bytes `Extended::encode_request` emits (lines 85-98): when the
payload length exceeds `0x80` a high byte `(len >> 8) | 0x80` precedes the
low byte `len & 0xff`; otherwise the single low byte is emitted. -/
def extLengthBytes (payload_length : Nat) : List Nat :=
  (if 0x80 < payload_length then [((payload_length >>> 8) ||| 0x80) % 256] else [])
    ++ [(payload_length &&& 0xff) % 256]

/-- `Extended::encode_request` (lines 79-119): extended command id, length
bytes, payload, wrapped in a simple packet with command `0x56`, then the
CRC16 of the whole packet appended big-endian. -/
def Extended.encode_request (id : Nat) (payload : List Nat) : List Nat :=
  let payload_length := payload.length % 65536
  let packet := Simple.encode_request 0x56 (id :: (extLengthBytes payload_length ++ payload))
  let checksum := crc16 packet
  packet ++ [(checksum >>> 8) % 256, (checksum &&& 0xff) % 256]

/-- `Extended::decode_extended` (lines 24-72): decode the enclosing simple
packet, require command `0x56`, optionally check the CRC of the full packet
bytes, take the extended command id from the first payload byte, optionally
check the ACK byte at index 1, and return the payload from index 2 up to the
trailing two CRC bytes.  The LENGTH flag is never consulted. -/
def Extended.decode_extended (stream : List Nat) (checks : Nat) :
    Except DecodeError ExtendedResponse :=
  match Simple.decode_stream stream with
  | .error e => .error e
  | .ok packet =>
    if packet.command ≠ 0x56 then .error .ExpectedExtended
    else
      let crcCheck : Except DecodeError Unit :=
        if VexExtPacketChecks.contains checks VexExtPacketChecks.CRC then
          if crc16 packet.packet ≠ 0 then .error .CrcError else .ok ()
        else .ok ()
      match crcCheck with
      | .error e => .error e
      | .ok _ =>
        match packet.payload.head? with
        | none => .error .PacketLengthError
        | some command_id =>
          let ackCheck : Except DecodeError Unit :=
            if VexExtPacketChecks.contains checks VexExtPacketChecks.ACK then
              match packet.payload.get? 1 with
              | none => .error .PacketLengthError
              | some ackByte =>
                match VexACKType.from_u8 ackByte with
                | .error e => .error e
                | .ok ack =>
                  if ack ≠ VexACKType.ACK then .error (.NACK ack) else .ok ()
            else .ok ()
          match ackCheck with
          | .error e => .error e
          | .ok _ =>
            match sliceGet packet.payload 2 (packet.payload.length - 2) with
            | none => .error .PacketLengthError
            | some payload => .ok ⟨command_id, payload⟩

/-- `Extended::decode_stream`: `decode_extended` with all checks enabled. -/
def Extended.decode_stream (stream : List Nat) : Except DecodeError ExtendedResponse :=
  Extended.decode_extended stream VexExtPacketChecks.ALL

/-!
Key-value commands, from `src/commands/kv.rs`.  Strings are embedded as
their byte lists.
-/

/-- Outcome of a Rust function that can also panic: `panicked` marks a
reachable `unwrap`/`panic`, which no `Result` value of the source carries. -/
inductive RustResult (α : Type) where
  | ok (val : α)
  | err (e : DecodeError)
  | panicked
  deriving DecidableEq

/-- Rust `strip_suffix(&[0])`: the list without its final element when that
element is `0`, and `none` otherwise. -/
def stripSuffixZero (l : List Nat) : Option (List Nat) :=
  if l.getLast? = some 0 then some l.dropLast else none

/-- `KVRead::encode_request`: the NUL-terminated key as the payload of
extended command `0x2e`. -/
def KVRead.encode_request (key : List Nat) : List Nat :=
  Extended.encode_request 0x2e (key ++ [0])

/-- `KVRead::decode_stream` (`src/commands/kv.rs` lines 43-57): decode the
extended response, require command id `0x2e`, then `strip_suffix(&[0]).unwrap()`
on the payload — the `unwrap` panics when the payload does not end in a NUL
byte.  The result is the byte list handed to `String::from_utf8`; the UTF-8
conversion itself (and its `UTF8Error`) is downstream of the claims and is
not modelled. -/
def KVRead.decode_stream (stream : List Nat) : RustResult (List Nat) :=
  match Extended.decode_stream stream with
  | .error e => .err e
  | .ok packet =>
    if packet.command_id ≠ 0x2e then .err (.ExpectedCommand 0x2e packet.command_id)
    else
      match stripSuffixZero packet.payload with
      | none => .panicked
      | some v => .ok v

/-- Byte list of the string of the team-number key. -/
def teamnumberKey : List Nat :=
  [0x74, 0x65, 0x61, 0x6d, 0x6e, 0x75, 0x6d, 0x62, 0x65, 0x72]

/-- Byte list of the string of the robot-name key. -/
def robotnameKey : List Nat :=
  [0x72, 0x6f, 0x62, 0x6f, 0x74, 0x6e, 0x61, 0x6d, 0x65]

/-- `KVWrite::encode_request` (`src/commands/kv.rs` lines 92-124): the value
is clamped to a per-key cap (7 for the team number, 16 for the robot name,
254 otherwise) and NUL-terminated, appended to the NUL-terminated key, and
sent as extended command `0x2f`.  (The source slices the value by bytes;
slicing inside a UTF-8 character would panic, which is outside the claims.) -/
def KVWrite.encode_request (key value : List Nat) : List Nat :=
  let packet_length := min value.length
    (if key = teamnumberKey then 7 else if key = robotnameKey then 16 else 254)
  Extended.encode_request 0x2f ((key ++ [0]) ++ (value.take packet_length ++ [0]))

/-- `KVWrite::decode_stream` (`src/commands/kv.rs` lines 127-138): decode the
extended response and require command id `0x2f`; on mismatch the source
raises `ExpectedCommand(0x2e, actual)` — the literal `0x2e` is what line 134
of the source writes, although this command sends id `0x2f`. -/
def KVWrite.decode_stream (stream : List Nat) : Except DecodeError Unit :=
  match Extended.decode_stream stream with
  | .error e => .error e
  | .ok packet =>
    if packet.command_id ≠ 0x2f then .error (.ExpectedCommand 0x2e packet.command_id)
    else .ok ()

/-!
File-transfer commands, from `src/commands/file.rs`.  These use the later
command trait `decode_response(command_id, data)`, where the device layer
(`src/devices/genericv5/device.rs`) passes the simple-packet command byte and
payload.
-/

/-- Modelled from the spec: the `Extended::decode_response` this generation
of `src/commands/file.rs` calls is absent from `src/` (only its callers
are).  Following section 4.4 of the spec and the in-source
`Extended::decode_extended` checks it performs on the simple-packet command
byte and payload: require the extended marker `0x56` (else
`ExpectedExtended`), take the extended command id from the first payload
byte (else `PacketLengthError`), interpret the next byte through the ACK
taxonomy (`NACK` error on any non-ACK), and return the payload from index 2
up to the trailing two CRC bytes.  The CRC check needs the full packet
bytes, which this signature does not receive, so it cannot be performed
here. -/
def Extended.decode_response (command_id : Nat) (data : List Nat) :
    Except DecodeError ExtendedResponse :=
  if command_id ≠ 0x56 then .error .ExpectedExtended
  else
    match data.head? with
    | none => .error .PacketLengthError
    | some ext_id =>
      match data.get? 1 with
      | none => .error .PacketLengthError
      | some ackByte =>
        match VexACKType.from_u8 ackByte with
        | .error e => .error e
        | .ok ack =>
          if ack ≠ VexACKType.ACK then .error (.NACK ack)
          else
            match sliceGet data 2 (data.length - 2) with
            | none => .error .PacketLengthError
            | some payload => .ok ⟨ext_id, payload⟩

/-- The `FileTransferInitResponse` of `src/commands/file.rs`: note that the
source declares `file_size` as a `u16`. -/
structure FileTransferInitResponse where
  max_packet_size : Nat
  file_size : Nat
  crc : Nat
  deriving DecidableEq

/-- `FileTransferInit::decode_response` (`src/commands/file.rs` lines
69-94): require extended command id `0x11`, then read `max_packet_size` as a
little-endian `u16` from bytes `0..2`, `file_size` as a little-endian `u16`
from bytes `2..4`, and `crc` as a little-endian `u32` from bytes `4..8`;
any slice that falls short is a `PacketLengthError`. -/
def FileTransferInit.decode_response (command_id : Nat) (data : List Nat) :
    Except DecodeError FileTransferInitResponse :=
  match Extended.decode_response command_id data with
  | .error e => .error e
  | .ok payload =>
    if payload.command_id ≠ 0x11 then .error (.ExpectedCommand 0x11 payload.command_id)
    else
      match sliceGet payload.payload 0 2 with
      | none => .error .PacketLengthError
      | some mps =>
        match sliceGet payload.payload 2 4 with
        | none => .error .PacketLengthError
        | some fs =>
          match sliceGet payload.payload 4 8 with
          | none => .error .PacketLengthError
          | some c => .ok ⟨leValue mps, leValue fs, leValue c⟩

/-- `FileTransferExit::decode_response` (`src/commands/file.rs` lines
131-143): require extended command id `0x12`, else
`ExpectedCommand(0x12, actual)`. -/
def FileTransferExit.decode_response (command_id : Nat) (data : List Nat) :
    Except DecodeError Unit :=
  match Extended.decode_response command_id data with
  | .error e => .error e
  | .ok payload =>
    if payload.command_id ≠ 0x12 then .error (.ExpectedCommand 0x12 payload.command_id)
    else .ok ()

/-- The `nbytes` padding computation of `FileTransferRead::encode_request`
(`src/commands/file.rs` lines 208-212): `self.1 + 4 - (self.1 % 4)` in
`u16` arithmetic, where `self.1 + 4` wraps modulo `2 ^ 16` (release
semantics) before the subtraction. -/
def FileTransferRead.wire_count (n_bytes : Nat) : Nat :=
  if n_bytes % 4 = 0 then n_bytes else ((n_bytes + 4) % 65536) - n_bytes % 4

/-- `FileTransferRead::encode_request` (`src/commands/file.rs` lines
205-224): little-endian address then the padded little-endian byte count, as
extended command `0x14`.  The later-generation `Extended::encode_request`
wrapper is absent from `src/`; per `send_command` in
`src/devices/genericv5/device.rs` the pair is the marker `0x56` with the
full packet bytes, which the in-source `Extended::encode_request`
produces. -/
def FileTransferRead.encode_request (addr n_bytes : Nat) : Nat × List Nat :=
  (0x56, Extended.encode_request 0x14
    (u32_to_le_bytes addr ++ u16_to_le_bytes (FileTransferRead.wire_count n_bytes)))

/-- The padding of `FileTransferWrite::encode_request` (`src/commands/file.rs`
lines 266-271): `Vec::resize` of the data to `len + 4 - (len % 4)` (or `len`
when already aligned) with zero fill. -/
def FileTransferWrite.padded_data (data : List Nat) : List Nat :=
  listResize data
    (if data.length % 4 = 0 then data.length else data.length + 4 - data.length % 4) 0

/-- `FileTransferWrite::encode_request` (`src/commands/file.rs` lines
260-280): little-endian address then the zero-padded data, as extended
command `0x13`. -/
def FileTransferWrite.encode_request (addr : Nat) (data : List Nat) : Nat × List Nat :=
  (0x56, Extended.encode_request 0x13
    (u32_to_le_bytes addr ++ FileTransferWrite.padded_data data))

/-!
File-handle close discipline, from `src/device/handle.rs`.  The handle is
modelled by its `closed` flag; the observable effect of an operation is the
list of ExitFile commands it sends.  The send-and-receive exchange of
`close` is a parameter (its outcome depends on the device), and `drop` has
no error outlet in its type, mirroring `unwrap_or_default`.
-/

/-- Observable protocol event: an ExitFile command carrying the completion
action byte was sent. -/
inductive FTEvent where
  | sendExit (action : Nat)
  deriving DecidableEq

/-- The `closed` state of a `V5FileHandle` (`src/device/handle.rs`). -/
structure V5FileHandle where
  closed : Bool
  deriving DecidableEq

/-- The `VexFiletransferFinished::DoNothing` discriminant (`src/device/mod.rs`
line 148). -/
def VexFiletransferFinished.DoNothing : Nat := 0

/-- `V5FileHandle::close` (`src/device/handle.rs` lines 29-42): send the
ExitFile command with the chosen completion action, then receive; only when
the exchange succeeds is `closed` set (an early `?` return skips it). -/
def V5FileHandle.close (h : V5FileHandle) (on_exit : Nat)
    (exchange : Except DecodeError (List Nat)) :
    V5FileHandle × List FTEvent × Except DecodeError (List Nat) :=
  match exchange with
  | .error e => (h, [FTEvent.sendExit on_exit], .error e)
  | .ok d => ({ closed := true }, [FTEvent.sendExit on_exit], .ok d)

/-- The `Drop` impl for `V5FileHandle` (`src/device/handle.rs` lines
170-176): when the handle is not closed, run `close` with the `DoNothing`
action and discard its result (`unwrap_or_default`); otherwise do nothing. -/
def V5FileHandle.drop (h : V5FileHandle)
    (exchange : Except DecodeError (List Nat)) : List FTEvent :=
  if h.closed then []
  else (h.close VexFiletransferFinished.DoNothing exchange).2.1

/-!
Concrete packets used by the evidence theorems below.
-/

/-- Prefix of a KVRead response whose data bytes do not end in NUL. -/
def kvReadNoNulBody : List Nat := [0xAA, 0x55, 0x56, 0x06, 0x2e, 0x76, 0x68, 0x69]

/-- The packet `kvReadNoNulBody` completed with its own CRC16 trailer, so
that every decode check passes. -/
def kvReadNoNulStream : List Nat :=
  kvReadNoNulBody ++ [crc16 kvReadNoNulBody >>> 8, crc16 kvReadNoNulBody % 256]

/-- Prefix of a well-formed extended response carrying ext command id `0x12`
and no data. -/
def extId12Body : List Nat := [0xAA, 0x55, 0x56, 0x04, 0x12, 0x76]

/-- The packet `extId12Body` completed with its own CRC16 trailer. -/
def extId12Stream : List Nat :=
  extId12Body ++ [crc16 extId12Body >>> 8, crc16 extId12Body % 256]

/-- An extended response stream with zeroed CRC trailer bytes, usable with
the CRC check disabled: ext id `0x2e`, ACK, data bytes `0x68 0x69`. -/
def plainExtStream : List Nat :=
  [0xAA, 0x55, 0x56, 0x06, 0x2e, 0x76, 0x68, 0x69, 0x00, 0x00]

/-- Ten distinguishable data bytes for the file-transfer-init layout
counterexample. -/
def ftInitData10 : List Nat :=
  [0x01, 0x02, 0x03, 0x04, 0x05, 0x06, 0x07, 0x08, 0x09, 0x0A]

/-!
Bit-arithmetic helper lemmas.
-/

/-- A value below `2 ^ k` has an empty intersection with the bit `2 ^ k`. -/
lemma and_two_pow_eq_zero {x k : Nat} (h : x < 2 ^ k) : x &&& 2 ^ k = 0 := by
  apply Nat.eq_of_testBit_eq
  intro i
  rw [Nat.testBit_and, Nat.zero_testBit, Nat.testBit_two_pow]
  rcases eq_or_ne k i with rfl | hne
  · simp [Nat.testBit_eq_false_of_lt h]
  · simp [hne]

/-- Xor of bit-disjoint summands coincides with or. -/
lemma xor_eq_or_of_disjoint {i b : Nat} (h : b < 2 ^ i) (a : Nat) :
    (2 ^ i * a) ^^^ b = (2 ^ i * a) ||| b := by
  apply Nat.eq_of_testBit_eq
  intro j
  rw [Nat.testBit_xor, Nat.testBit_or, Nat.testBit_mul_pow_two]
  rcases Nat.lt_or_ge j i with hj | hj
  · simp [Nat.not_le.mpr hj]
  · have hbj : b.testBit j = false :=
      Nat.testBit_eq_false_of_lt (lt_of_lt_of_le h (Nat.pow_le_pow_right (by norm_num) hj))
    simp [hj, hbj]

/-- Xor of bit-disjoint summands is their sum. -/
lemma xor_eq_add_of_disjoint {i b : Nat} (h : b < 2 ^ i) (a : Nat) :
    (2 ^ i * a) ^^^ b = 2 ^ i * a + b := by
  rw [xor_eq_or_of_disjoint h, ← Nat.mul_add_lt_is_or h]

/-- Clearing the low byte of a 16-bit value by xor leaves the low byte. -/
lemma xor_shift_high {c : Nat} (h : c < 65536) : c ^^^ ((c >>> 8) <<< 8) = c % 256 := by
  have hq : (c >>> 8) <<< 8 = 2 ^ 8 * (c / 256) := by
    rw [Nat.shiftRight_eq_div_pow, Nat.shiftLeft_eq, Nat.mul_comm]
  have hr : c % 256 < 2 ^ 8 := by omega
  have hc : c = (2 ^ 8 * (c / 256)) ^^^ (c % 256) := by
    rw [xor_eq_add_of_disjoint hr]
    have := Nat.div_add_mod c 256
    omega
  rw [hq]
  nth_rewrite 1 [hc]
  rw [Nat.xor_comm (2 ^ 8 * (c / 256)) (c % 256), Nat.xor_assoc, Nat.xor_self, Nat.xor_zero]

/-!
Properties of the CRC16 engine.  The central fact is the textbook residue
property of an MSB-first CRC with zero init and zero xorout: appending the
big-endian checksum of a message makes the checksum of the whole zero.
-/

/-- Every bit step stays below `2 ^ 16`. -/
lemma crc16Bit_lt (c : Nat) : crc16Bit c < 65536 := by
  unfold crc16Bit
  split <;> exact Nat.mod_lt _ (by norm_num)

/-- Every byte step stays below `2 ^ 16`. -/
lemma crc16Byte_lt (c b : Nat) : crc16Byte c b < 65536 := by
  unfold crc16Byte
  exact crc16Bit_lt _

/-- The checksum is a 16-bit value. -/
lemma crc16_lt (data : List Nat) : crc16 data < 65536 := by
  suffices h : ∀ (l : List Nat) (c : Nat), c < 65536 → List.foldl crc16Byte c l < 65536 by
    exact h data 0 (by norm_num)
  intro l
  induction l with
  | nil => intro c hc; simpa using hc
  | cons b t ih => intro c hc; exact ih _ (crc16Byte_lt c b)

/-- Below `2 ^ 15` the bit step is a plain doubling. -/
lemma crc16Bit_of_lt {x : Nat} (h : x < 32768) : crc16Bit x = 2 * x := by
  have hb : x.testBit 15 = false := Nat.testBit_eq_false_of_lt h
  unfold crc16Bit
  rw [hb]
  simp only [Bool.false_eq_true, if_false]
  rw [Nat.shiftLeft_eq, pow_one, Nat.mul_comm, Nat.mod_eq_of_lt (by omega)]

/-- Eight bit steps on a byte-sized value shift it into the high byte. -/
lemma crc16Bit8_of_lt {x : Nat} (h : x < 256) :
    crc16Bit (crc16Bit (crc16Bit (crc16Bit (crc16Bit (crc16Bit (crc16Bit (crc16Bit x)))))))
      = 256 * x := by
  have e1 : crc16Bit x = 2 * x := crc16Bit_of_lt (by omega)
  have e2 : crc16Bit (2 * x) = 2 * (2 * x) := crc16Bit_of_lt (by omega)
  have e3 : crc16Bit (2 * (2 * x)) = 2 * (2 * (2 * x)) := crc16Bit_of_lt (by omega)
  have e4 : crc16Bit (2 * (2 * (2 * x))) = 2 * (2 * (2 * (2 * x))) := crc16Bit_of_lt (by omega)
  have e5 : crc16Bit (2 * (2 * (2 * (2 * x)))) = 2 * (2 * (2 * (2 * (2 * x)))) :=
    crc16Bit_of_lt (by omega)
  have e6 : crc16Bit (2 * (2 * (2 * (2 * (2 * x))))) = 2 * (2 * (2 * (2 * (2 * (2 * x))))) :=
    crc16Bit_of_lt (by omega)
  have e7 : crc16Bit (2 * (2 * (2 * (2 * (2 * (2 * x)))))) =
      2 * (2 * (2 * (2 * (2 * (2 * (2 * x)))))) := crc16Bit_of_lt (by omega)
  have e8 : crc16Bit (2 * (2 * (2 * (2 * (2 * (2 * (2 * x))))))) =
      2 * (2 * (2 * (2 * (2 * (2 * (2 * (2 * x))))))) := crc16Bit_of_lt (by omega)
  rw [e1, e2, e3, e4, e5, e6, e7, e8]
  ring

/-- Feeding the high checksum byte into the byte step leaves the shifted low
byte. -/
lemma crc16Byte_high {c : Nat} (h : c < 65536) : crc16Byte c (c >>> 8) = 256 * (c % 256) := by
  unfold crc16Byte
  rw [xor_shift_high h, Nat.mod_eq_of_lt (by omega)]
  exact crc16Bit8_of_lt (by omega)

/-- Feeding the low checksum byte after the high one cancels to zero. -/
lemma crc16Byte_low {r : Nat} (h : r < 256) : crc16Byte (256 * r) r = 0 := by
  unfold crc16Byte
  have hz : (256 * r) ^^^ (r <<< 8) = 0 := by
    rw [Nat.shiftLeft_eq, Nat.mul_comm r (2 ^ 8)]
    norm_num
  rw [hz]
  rfl

/-- Residue property: a message followed by its own big-endian CRC16
checksums to zero. -/
lemma crc16_append_checksum (m : List Nat) :
    crc16 (m ++ [crc16 m >>> 8, crc16 m % 256]) = 0 := by
  have h := crc16_lt m
  show List.foldl crc16Byte 0 (m ++ [crc16 m >>> 8, crc16 m % 256]) = 0
  rw [List.foldl_append]
  show crc16Byte (crc16Byte (crc16 m) (crc16 m >>> 8)) (crc16 m % 256) = 0
  rw [crc16Byte_high h]
  exact crc16Byte_low (by omega)

/-!
Properties of the response framer.
-/

/-- Bytes other than `0xAA` leave the scanner in its start state. -/
lemma syncScan_garbage {g : List Nat} (hg : ∀ b ∈ g, b ≠ 0xAA) (rest : List Nat) :
    syncScan (g ++ rest) 0 = syncScan rest 0 := by
  induction g with
  | nil => rfl
  | cons b t ih =>
    have hb : b ≠ 0xAA := hg b (by simp)
    have ht : ∀ x ∈ t, x ≠ 0xAA := fun x hx => hg x (by simp [hx])
    rw [List.cons_append]
    rw [show syncScan (b :: (t ++ rest)) 0
        = syncScan (t ++ rest) (if b = expected_header 0 then 0 + 1 else 0) from rfl]
    rw [if_neg (by simpa [expected_header] using hb)]
    exact ih ht

/-- After `0xAA`, any byte other than `0x55` resets the scanner to its start
state — the mismatching byte is consumed, not re-examined. -/
lemma syncScan_spurious {x : Nat} (h55 : x ≠ 0x55) (rest : List Nat) :
    syncScan (0xAA :: x :: rest) 0 = syncScan rest 0 := by
  rw [show syncScan (0xAA :: x :: rest) 0
      = syncScan (x :: rest) (if (0xAA : Nat) = expected_header 0 then 0 + 1 else 0) from rfl]
  rw [if_pos (by simp [expected_header])]
  rw [show syncScan (x :: rest) 1
      = syncScan rest (if x = expected_header 1 then 1 + 1 else 0) from rfl]
  rw [if_neg (by simpa [expected_header] using h55)]

/-- The scanner stops right after a full `AA 55` sync. -/
lemma syncScan_sync (rest : List Nat) : syncScan (0xAA :: 0x55 :: rest) 0 = some rest := by
  rw [show syncScan (0xAA :: 0x55 :: rest) 0
      = syncScan (0x55 :: rest) (if (0xAA : Nat) = expected_header 0 then 0 + 1 else 0) from rfl]
  rw [if_pos (by simp [expected_header])]
  rw [show syncScan (0x55 :: rest) 1
      = syncScan rest (if (0x55 : Nat) = expected_header 1 then 1 + 1 else 0) from rfl]
  rw [if_pos (by simp [expected_header])]
  cases rest <;> rfl

/-- Successful decode of a synchronized non-extended packet body. -/
lemma decode_stream_of_syncScan {stream : List Nat} {command lb : Nat} {payload : List Nat}
    (hs : syncScan stream 0 = some (command :: lb :: payload))
    (hcond : ¬(command = 0x56 ∧ lb &&& 0x80 = 0x80)) (hlen : payload.length = lb) :
    Simple.decode_stream stream = .ok ⟨command, payload, [0xAA, 0x55, command, lb] ++ payload⟩ := by
  unfold Simple.decode_stream
  rw [hs]
  simp only [if_neg hcond]
  rw [show readExact lb payload = some (payload.take lb, payload.drop lb) from
    if_pos (by omega)]
  rw [← hlen, List.take_length]

/-- Successful decode of a synchronized extended packet body with a two-byte
length. -/
lemma decode_stream_of_syncScan2 {stream : List Nat} {lb bl : Nat} {payload : List Nat}
    (hs : syncScan stream 0 = some (0x56 :: lb :: bl :: payload))
    (hlb : lb &&& 0x80 = 0x80) (hlen : payload.length = ((lb &&& 0x7f) <<< 8) ||| bl) :
    Simple.decode_stream stream
      = .ok ⟨0x56, payload, [0xAA, 0x55, 0x56, lb, bl] ++ payload⟩ := by
  unfold Simple.decode_stream
  rw [hs]
  simp only [hlb]
  rw [if_pos (⟨trivial, trivial⟩ : True ∧ True)]
  rw [show readExact (((lb &&& 0x7f) <<< 8) ||| bl) payload
      = some (payload.take (((lb &&& 0x7f) <<< 8) ||| bl),
              payload.drop (((lb &&& 0x7f) <<< 8) ||| bl)) from if_pos (by omega)]
  rw [← hlen, List.take_length]

/-!
Claim theorems.
-/

/-- C1 (counterexample): the claimed round-trip fails at the smallest claimed
payload length 0 — `Simple::decode_stream` scans for the response sync
`AA 55`, which the encoded request (host sync `C9 36 B8 47`, extended id
before the length varint) never presents — and for a payload of length
`0x80` the emitted length varint is the single byte `0x80`, whose high bit
is set, contradicting the claim that a single length byte for a length of at
most `0x80` never sets the high bit. -/
theorem c1_counterexample :
    Extended.decode_stream (Extended.encode_request 0x01 []) ≠ .ok ⟨0x01, []⟩ ∧
    extLengthBytes 0x80 = [0x80] ∧
    Nat.testBit 0x80 7 = true := by
  decide

/-- C1 (amended): what round-trips is the length varint against the decoder
of the response framing: for any payload whose length is at most `0x7F`, or
strictly between `0x80` and `0x7FFF`, a response-framed extended packet
carrying the varint emitted by `Extended::encode_request` is decoded back
with exactly that payload; the varint occupies one byte iff the length is at
most `0x80` (so at exactly `0x80` the single byte sets the high bit and the
decoder misreads it as the start of a two-byte length). -/
theorem c1_amended (L : Nat) (payload : List Nat) (hlen : payload.length = L)
    (hL : L ≤ 0x7F ∨ (0x80 < L ∧ L ≤ 0x7FFF)) :
    Simple.decode_stream ([0xAA, 0x55, 0x56] ++ extLengthBytes L ++ payload)
      = .ok ⟨0x56, payload, [0xAA, 0x55, 0x56] ++ extLengthBytes L ++ payload⟩
    ∧ (extLengthBytes L).length = (if L ≤ 0x80 then 1 else 2) := by
  rcases hL with hL | ⟨hL1, hL2⟩
  · have he : extLengthBytes L = [L] := by
      unfold extLengthBytes
      rw [if_neg (by omega)]
      have h1 : L &&& 0xff = L := by
        rw [(show (0xff : Nat) = 2 ^ 8 - 1 from rfl), Nat.and_pow_two_sub_one_eq_mod]
        exact Nat.mod_eq_of_lt (by omega)
      rw [List.nil_append, h1, Nat.mod_eq_of_lt (by omega)]
    have hz : L &&& 0x80 = 0 := by
      rw [(show (0x80 : Nat) = 2 ^ 7 from rfl)]
      exact and_two_pow_eq_zero (by omega)
    refine ⟨?_, ?_⟩
    · rw [he]
      have hs : syncScan ([0xAA, 0x55, 0x56] ++ [L] ++ payload) 0
          = some (0x56 :: L :: payload) := by
        rw [show ([0xAA, 0x55, 0x56] ++ [L] ++ payload)
            = 0xAA :: 0x55 :: (0x56 :: L :: payload) by simp]
        exact syncScan_sync _
      have := decode_stream_of_syncScan hs (by rintro ⟨-, hb⟩; omega) hlen
      simpa using this
    · rw [he]
      simp [show L ≤ 0x80 by omega]
  · have hq7 : L / 256 < 2 ^ 7 := by omega
    have hhi : (L >>> 8) ||| 0x80 = 128 + L / 256 := by
      rw [Nat.shiftRight_eq_div_pow, Nat.or_comm]
      rw [show (0x80 : Nat) = 2 ^ 7 * 1 by norm_num]
      rw [← Nat.mul_add_lt_is_or hq7 1]
    have he : extLengthBytes L = [128 + L / 256, L % 256] := by
      unfold extLengthBytes
      rw [if_pos (by omega)]
      rw [hhi, Nat.mod_eq_of_lt (by omega)]
      rw [(show (0xff : Nat) = 2 ^ 8 - 1 from rfl), Nat.and_pow_two_sub_one_eq_mod]
      rw [Nat.mod_eq_of_lt (show L % 2 ^ 8 < 256 by omega)]
      rfl
    have hand : (128 + L / 256) &&& 0x80 = 0x80 := by
      rw [show (128 : Nat) + L / 256 = 2 ^ 7 * 1 + L / 256 by ring]
      rw [Nat.mul_add_lt_is_or hq7 1]
      rw [show (0x80 : Nat) = 2 ^ 7 from rfl, Nat.and_distrib_right]
      rw [and_two_pow_eq_zero hq7, Nat.mul_one, Nat.and_self, Nat.or_zero]
    have h7f : (128 + L / 256) &&& 0x7f = L / 256 := by
      rw [(show (0x7f : Nat) = 2 ^ 7 - 1 from rfl), Nat.and_pow_two_sub_one_eq_mod]
      omega
    have hcomb : (((128 + L / 256) &&& 0x7f) <<< 8) ||| (L % 256) = L := by
      rw [h7f, Nat.shiftLeft_eq, Nat.mul_comm]
      rw [← Nat.mul_add_lt_is_or (show L % 256 < 2 ^ 8 by omega) (L / 256)]
      have := Nat.div_add_mod L 256
      omega
    refine ⟨?_, ?_⟩
    · rw [he]
      have hs : syncScan ([0xAA, 0x55, 0x56] ++ [128 + L / 256, L % 256] ++ payload) 0
          = some (0x56 :: (128 + L / 256) :: (L % 256) :: payload) := by
        rw [show ([0xAA, 0x55, 0x56] ++ [128 + L / 256, L % 256] ++ payload)
            = 0xAA :: 0x55 :: (0x56 :: (128 + L / 256) :: (L % 256) :: payload) by simp]
        exact syncScan_sync _
      have := decode_stream_of_syncScan2 hs hand (by rw [hcomb]; exact hlen)
      simpa using this
    · rw [he]
      simp [show ¬(L ≤ 0x80) by omega]

/-- C1 (amended, witness): instantiation at payload length 0. -/
theorem c1_amended_witness :
    Simple.decode_stream ([0xAA, 0x55, 0x56] ++ extLengthBytes 0 ++ [])
      = .ok ⟨0x56, [], [0xAA, 0x55, 0x56] ++ extLengthBytes 0 ++ []⟩
    ∧ (extLengthBytes 0).length = (if (0 : Nat) ≤ 0x80 then 1 else 2) :=
  c1_amended 0 [] rfl (Or.inl (by norm_num))

/-- C2: the CRC16/XMODEM checksum of every packet produced by
`Extended::encode_request` — sync, command, length varint, payload and the
appended big-endian trailer — is exactly zero; and with the CRC check
enabled, `Extended::decode_extended` rejects any received extended simple
packet whose full byte sequence checksums to a nonzero value with
`CrcError`. -/
theorem c2_crc_trailer :
    (∀ (id : Nat) (payload : List Nat), crc16 (Extended.encode_request id payload) = 0) ∧
    (∀ (stream : List Nat) (checks : Nat) (resp : SimpleResponse),
      VexExtPacketChecks.contains checks VexExtPacketChecks.CRC = true →
      Simple.decode_stream stream = .ok resp →
      resp.command = 0x56 →
      crc16 resp.packet ≠ 0 →
      Extended.decode_extended stream checks = .error .CrcError) := by
  constructor
  · intro id payload
    simp only [Extended.encode_request]
    generalize Simple.encode_request 0x56
      (id :: (extLengthBytes (payload.length % 65536) ++ payload)) = p
    have h := crc16_lt p
    have e1 : (crc16 p >>> 8) % 256 = crc16 p >>> 8 := by
      rw [Nat.shiftRight_eq_div_pow]
      exact Nat.mod_eq_of_lt (by omega)
    have e2 : (crc16 p &&& 0xff) % 256 = crc16 p % 256 := by
      rw [(show (0xff : Nat) = 2 ^ 8 - 1 from rfl), Nat.and_pow_two_sub_one_eq_mod]
      omega
    rw [e1, e2]
    exact crc16_append_checksum p
  · intro stream checks resp hc hS h56 hcrc
    unfold Extended.decode_extended
    rw [hS]
    simp only [h56]
    rw [if_neg (by simp)]
    rw [hc]
    simp [hcrc]

/-- C2 (witness): a concrete well-formed encode input, and a concrete
corrupt received packet rejected by the CRC check. -/
theorem c2_crc_trailer_witness :
    crc16 (Extended.encode_request 0x2e [0x74]) = 0 ∧
    Extended.decode_extended [0xAA, 0x55, 0x56, 0x02, 0x01, 0x02] 7 = .error .CrcError :=
  ⟨c2_crc_trailer.1 0x2e [0x74],
   c2_crc_trailer.2 [0xAA, 0x55, 0x56, 0x02, 0x01, 0x02] 7
     ⟨0x56, [0x01, 0x02], [0xAA, 0x55, 0x56, 0x02, 0x01, 0x02]⟩
     (by decide) (by decide) rfl (by decide)⟩

/-- C3 (counterexample): the byte sequence `AA AA 55` followed by a valid
packet body is not synchronized at the second `AA` — the framer consumes the
whole stream without decoding, while the same body preceded by a clean
`AA 55` decodes fine. -/
theorem c3_counterexample :
    Simple.decode_stream [0xAA, 0xAA, 0x55, 0x21, 0x01, 0x99] = .error .IoError ∧
    Simple.decode_stream [0xAA, 0x55, 0x21, 0x01, 0x99]
      = .ok ⟨0x21, [0x99], [0xAA, 0x55, 0x21, 0x01, 0x99]⟩ := by
  decide

/-- C3 (amended): on a mismatch the scanner resets to 0 and the mismatching
byte is consumed without being re-examined; consequently, garbage free of
`0xAA`, followed by a spurious partial sync (`0xAA` then a non-`0x55` byte),
followed by a valid full packet, is decoded with all preceding bytes
ignored. -/
theorem c3_amended (g : List Nat) (x command lb : Nat) (payload : List Nat)
    (hg : ∀ b ∈ g, b ≠ 0xAA) (hx : x ≠ 0x55) (hcmd : command ≠ 0x56)
    (hlen : payload.length = lb) :
    Simple.decode_stream (g ++ [0xAA, x] ++ ([0xAA, 0x55, command, lb] ++ payload))
      = .ok ⟨command, payload, [0xAA, 0x55, command, lb] ++ payload⟩ := by
  have hs : syncScan (g ++ [0xAA, x] ++ ([0xAA, 0x55, command, lb] ++ payload)) 0
      = some (command :: lb :: payload) := by
    rw [List.append_assoc]
    rw [syncScan_garbage hg]
    rw [show ([0xAA, x] ++ ([0xAA, 0x55, command, lb] ++ payload))
        = 0xAA :: x :: ([0xAA, 0x55, command, lb] ++ payload) by simp]
    rw [syncScan_spurious hx]
    rw [show ([0xAA, 0x55, command, lb] ++ payload)
        = 0xAA :: 0x55 :: (command :: lb :: payload) by simp]
    exact syncScan_sync _
  exact decode_stream_of_syncScan hs (by rintro ⟨hc, -⟩; exact hcmd hc) hlen

/-- C3 (amended, witness): garbage `12 34`, spurious `AA 00`, then a valid
packet with command `0x21` and a one-byte payload. -/
theorem c3_amended_witness :
    Simple.decode_stream ([0x12, 0x34] ++ [0xAA, 0x00] ++ ([0xAA, 0x55, 0x21, 0x01] ++ [0x99]))
      = .ok ⟨0x21, [0x99], [0xAA, 0x55, 0x21, 0x01] ++ [0x99]⟩ :=
  c3_amended [0x12, 0x34] 0x00 0x21 0x01 [0x99]
    (by decide) (by decide) (by decide) rfl

/-- C4 (counterexample): `0xCF` lies in the range `0xCE`–`0xDB` but
`from_u8` maps it to `InvalidAck`, not to a NACK variant. -/
theorem c4_counterexample :
    VexACKType.from_u8 0xCF = .error .InvalidAck ∧
    (0xCE : Nat) ≤ 0xCF ∧ (0xCF : Nat) ≤ 0xDB := by
  decide

/-- C4 (amended): `from_u8` is total; `0x76` and only `0x76` maps to ACK;
the thirteen bytes `0xCE, 0xD0, …, 0xDB` map to pairwise distinct NACK
variants; every other byte — including `0xCF` inside the nominal NACK range
and `0xFF` despite the unused `NACKGeneral` variant — yields `InvalidAck`,
never a silent default. -/
theorem c4_amended :
    (∀ b : Nat, b < 256 → (VexACKType.from_u8 b = .ok .ACK ↔ b = 0x76)) ∧
    (∀ b : Nat, b < 256 →
      (VexACKType.from_u8 b = .error .InvalidAck ↔
        ¬(b = 0x76 ∨ b = 0xCE ∨ (0xD0 ≤ b ∧ b ≤ 0xDB)))) ∧
    (0xCE :: List.range' 0xD0 12).map VexACKType.from_u8 =
      [.ok .NACKCrcError, .ok .NACKPayloadShort, .ok .NACKTransferSizeTooLarge,
       .ok .NACKProgramCrcFailed, .ok .NACKProgramFileError, .ok .NACKUninitializedTransfer,
       .ok .NACKInitializationInvalid, .ok .NACKLengthNotPaddedTo4, .ok .NACKAddressNoMatch,
       .ok .NACKDownloadLengthNoMatch, .ok .NACKDirectoryNoExist, .ok .NACKNoFileRoom,
       .ok .NACKFileAlreadyExists] ∧
    ((0xCE :: List.range' 0xD0 12).map VexACKType.from_u8).Nodup := by
  refine ⟨by decide, by decide, by decide, by decide⟩

/-- C4 (amended, witness): instantiation at the success byte and at the
unmapped byte `0xFF`. -/
theorem c4_amended_witness :
    (VexACKType.from_u8 0x76 = .ok .ACK ↔ (0x76 : Nat) = 0x76) ∧
    (VexACKType.from_u8 0xFF = .error .InvalidAck ↔
      ¬((0xFF : Nat) = 0x76 ∨ (0xFF : Nat) = 0xCE ∨ ((0xD0 : Nat) ≤ 0xFF ∧ (0xFF : Nat) ≤ 0xDB))) :=
  ⟨c4_amended.1 0x76 (by norm_num), c4_amended.2.1 0xFF (by norm_num)⟩

/-- C5 (evidence): the short-payload example of the claim does hold — a
1-byte extended payload decoded with the ACK check disabled yields
`PacketLengthError` — but the KVRead claim fails in the code: on a fully
valid response whose data bytes `68 69` lack a trailing NUL the extended
decode succeeds and `KVRead::decode_stream` then panics on
`strip_suffix(&[0]).unwrap()` instead of returning an error. -/
theorem c5_evidence :
    Extended.decode_extended [0xAA, 0x55, 0x56, 0x01, 0x07] 0 = .error .PacketLengthError ∧
    Extended.decode_stream kvReadNoNulStream = .ok ⟨0x2e, [0x68, 0x69]⟩ ∧
    KVRead.decode_stream kvReadNoNulStream = .panicked := by
  decide

/-- C6 (evidence): `KVWrite::encode_request` sends extended command id
`0x2f` (byte 5 of the encoded packet), and `FileTransferExit` correctly
reports `ExpectedCommand(0x12, actual)`, but `KVWrite::decode_stream`
reports the mismatch as `ExpectedCommand(0x2e, actual)` — the copy-pasted
`0x2e` of `src/commands/kv.rs` line 134 — although the id it sent was
`0x2f`. -/
theorem c6_evidence :
    KVWrite.encode_request teamnumberKey [0x41]
      = [0xc9, 0x36, 0xb8, 0x47, 0x56, 0x2f]
        ++ (KVWrite.encode_request teamnumberKey [0x41]).drop 6 ∧
    KVWrite.decode_stream extId12Stream = .error (.ExpectedCommand 0x2e 0x12) ∧
    FileTransferExit.decode_response 0x56 [0x11, 0x76, 0x00, 0x00]
      = .error (.ExpectedCommand 0x12 0x11) := by
  decide

/-- C7 (counterexample): on a response whose data bytes are
`01 02 03 04 05 06 07 08 09 0A`, `FileTransferInit::decode_response` returns
`file_size = 0x0403` (little-endian u16 of bytes 2-3) and
`crc = 0x08070605` (little-endian u32 of bytes 4-7), not the claimed
u32-at-bytes-2-5 `0x06050403` and u32-at-bytes-6-9 `0x0A090807`. -/
theorem c7_counterexample :
    FileTransferInit.decode_response 0x56 ([0x11, 0x76] ++ ftInitData10 ++ [0x00, 0x00])
      = .ok ⟨0x0201, 0x0403, 0x08070605⟩ ∧
    FileTransferInit.decode_response 0x56 ([0x11, 0x76] ++ ftInitData10 ++ [0x00, 0x00])
      ≠ .ok ⟨0x0201, 0x06050403, 0x0A090807⟩ := by
  decide

/-- C7 (amended): whenever the extended decode succeeds with id `0x11` and
data `d`, the response decodes `max_packet_size` as little-endian u16 from
bytes 0-1, `file_size` as little-endian u16 from bytes 2-3 and `crc` as
little-endian u32 from bytes 4-7; any `d` shorter than 8 bytes yields
`PacketLengthError`. -/
theorem c7_amended (command_id : Nat) (data d : List Nat)
    (h : Extended.decode_response command_id data = .ok ⟨0x11, d⟩) :
    FileTransferInit.decode_response command_id data =
      (if 8 ≤ d.length then
        .ok ⟨leValue (d.take 2), leValue ((d.drop 2).take 2), leValue ((d.drop 4).take 4)⟩
       else .error .PacketLengthError) := by
  unfold FileTransferInit.decode_response
  rw [h]
  by_cases h8 : 8 ≤ d.length
  · have s1 : sliceGet d 0 2 = some (d.take 2) := by
      unfold sliceGet
      rw [if_pos ⟨by omega, by omega⟩]
      simp
    have s2 : sliceGet d 2 4 = some ((d.drop 2).take 2) := by
      unfold sliceGet
      rw [if_pos ⟨by omega, by omega⟩]
    have s3 : sliceGet d 4 8 = some ((d.drop 4).take 4) := by
      unfold sliceGet
      rw [if_pos ⟨by omega, by omega⟩]
    rw [if_pos h8]
    simp [s1, s2, s3]
  · rw [if_neg h8]
    by_cases h2 : 2 ≤ d.length
    · by_cases h4 : 4 ≤ d.length
      · have s1 : sliceGet d 0 2 = some (d.take 2) := by
          unfold sliceGet
          rw [if_pos ⟨by omega, by omega⟩]
          simp
        have s2 : sliceGet d 2 4 = some ((d.drop 2).take 2) := by
          unfold sliceGet
          rw [if_pos ⟨by omega, by omega⟩]
        have s3 : sliceGet d 4 8 = none := by
          unfold sliceGet
          rw [if_neg (by omega)]
        simp [s1, s2, s3]
      · have s1 : sliceGet d 0 2 = some (d.take 2) := by
          unfold sliceGet
          rw [if_pos ⟨by omega, by omega⟩]
          simp
        have s2 : sliceGet d 2 4 = none := by
          unfold sliceGet
          rw [if_neg (by omega)]
        simp [s1, s2]
    · have s1 : sliceGet d 0 2 = none := by
        unfold sliceGet
        rw [if_neg (by omega)]
      simp [s1]

/-- C7 (amended, witness): instantiation at the concrete ten-byte data. -/
theorem c7_amended_witness :
    FileTransferInit.decode_response 0x56 ([0x11, 0x76] ++ ftInitData10 ++ [0x00, 0x00]) =
      (if 8 ≤ ftInitData10.length then
        .ok ⟨leValue (ftInitData10.take 2), leValue ((ftInitData10.drop 2).take 2),
             leValue ((ftInitData10.drop 4).take 4)⟩
       else .error .PacketLengthError) :=
  c7_amended 0x56 ([0x11, 0x76] ++ ftInitData10 ++ [0x00, 0x00]) ftInitData10 (by decide)

/-- C8 (counterexample): requesting `0xFFFF` bytes wraps the 16-bit rounding
arithmetic to a wire count of 0 — a multiple of 4, but not `0xFFFF` rounded
up — and the encoded request indeed carries count bytes `00 00` (payload
bytes 4-5 after the address, at offsets 11-12 of the packet; the shown
prefix is sync, command `0x56`, ext id `0x14`, length `0x06`, the four
address bytes and the two count bytes). -/
theorem c8_counterexample :
    FileTransferRead.wire_count 0xFFFF = 0 ∧
    ¬(0xFFFF ≤ FileTransferRead.wire_count 0xFFFF) ∧
    (FileTransferRead.encode_request 0 0xFFFF).2.take 13
      = [0xc9, 0x36, 0xb8, 0x47, 0x56, 0x14, 0x06, 0x00, 0x00, 0x00, 0x00, 0x00, 0x00] := by
  decide

/-- C8 (amended): the read wire count equals the caller count rounded up to
a multiple of 4 whenever that fits a `u16` (count at most `0xFFFC`); it is a
multiple of 4 for every `u16` count (for `0xFFFD..0xFFFF` wrapping makes it
0); the count is embedded little-endian after the 4 address bytes; and write
payloads are the data zero-padded to the next multiple of 4, embedded after
the 4 address bytes. -/
theorem c8_amended :
    (∀ n : Nat, n ≤ 0xFFFC → FileTransferRead.wire_count n = 4 * ((n + 3) / 4)) ∧
    (∀ n : Nat, n < 65536 → FileTransferRead.wire_count n % 4 = 0) ∧
    (∀ addr n : Nat, (FileTransferRead.encode_request addr n).2
      = Extended.encode_request 0x14
          (u32_to_le_bytes addr ++ u16_to_le_bytes (FileTransferRead.wire_count n))) ∧
    (∀ data : List Nat,
      FileTransferWrite.padded_data data
        = data ++ List.replicate ((4 - data.length % 4) % 4) 0) ∧
    (∀ data : List Nat, (FileTransferWrite.padded_data data).length % 4 = 0) ∧
    (∀ (addr : Nat) (data : List Nat), (FileTransferWrite.encode_request addr data).2
      = Extended.encode_request 0x13 (u32_to_le_bytes addr ++ FileTransferWrite.padded_data data)) := by
  refine ⟨?_, ?_, fun addr n => rfl, ?_, ?_, fun addr data => rfl⟩
  · intro n hn
    unfold FileTransferRead.wire_count
    split <;> omega
  · intro n hn
    unfold FileTransferRead.wire_count
    split <;> omega
  · intro data
    unfold FileTransferWrite.padded_data listResize
    by_cases h : data.length % 4 = 0
    · rw [if_pos h, List.take_length]
      congr 1
      congr 1
      omega
    · rw [if_neg h, List.take_of_length_le (by omega)]
      congr 1
      congr 1
      omega
  · intro data
    unfold FileTransferWrite.padded_data listResize
    rw [List.length_append, List.length_take, List.length_replicate]
    by_cases h : data.length % 4 = 0
    · rw [if_pos h]
      simp
      omega
    · rw [if_neg h]
      rw [Nat.min_eq_right (by omega)]
      omega

/-- C8 (amended, witness): instantiations at count 5, count `0xFFFE`, and a
one-byte write payload. -/
theorem c8_amended_witness :
    FileTransferRead.wire_count 5 = 4 * ((5 + 3) / 4) ∧
    FileTransferRead.wire_count 0xFFFE % 4 = 0 ∧
    FileTransferWrite.padded_data [0x01]
      = [0x01] ++ List.replicate ((4 - [0x01].length % 4) % 4) 0 :=
  ⟨c8_amended.1 5 (by norm_num), c8_amended.2.1 0xFFFE (by norm_num),
   c8_amended.2.2.2.1 [0x01]⟩

/-- C9: a successful explicit close sends exactly one ExitFile command with
the chosen action and marks the handle closed; dropping an unclosed handle
sends exactly one ExitFile with the `DoNothing` action, and its type returns
only the event list — any error of that automatic close is swallowed;
dropping a closed handle (in particular one just closed explicitly) sends
nothing, so the close goes out exactly once. -/
theorem c9_close_once (h : V5FileHandle) (on_exit : Nat) (d : List Nat)
    (ex ex2 : Except DecodeError (List Nat)) :
    (h.close on_exit (.ok d)).1.closed = true ∧
    (h.close on_exit (.ok d)).2.1 = [FTEvent.sendExit on_exit] ∧
    (h.closed = false → h.drop ex = [FTEvent.sendExit VexFiletransferFinished.DoNothing]) ∧
    (h.closed = true → h.drop ex = []) ∧
    (h.close on_exit (.ok d)).1.drop ex2 = [] := by
  refine ⟨rfl, rfl, ?_, ?_, rfl⟩
  · intro hc
    unfold V5FileHandle.drop
    rw [hc]
    cases ex <;> rfl
  · intro hc
    unfold V5FileHandle.drop
    rw [hc]
    rfl

/-- C9 (witness): a fresh open handle closed explicitly, an abandoned handle
whose automatic close fails, and a closed handle being dropped. -/
theorem c9_close_once_witness :
    ((V5FileHandle.mk false).close 3 (.ok [])).1.closed = true ∧
    (V5FileHandle.mk false).drop (.error .CrcError)
      = [FTEvent.sendExit VexFiletransferFinished.DoNothing] ∧
    (V5FileHandle.mk true).drop (.error .CrcError) = [] :=
  ⟨(c9_close_once ⟨false⟩ 3 [] (.error .CrcError) (.ok [])).1,
   (c9_close_once ⟨false⟩ 3 [] (.error .CrcError) (.ok [])).2.2.1 rfl,
   (c9_close_once ⟨true⟩ 3 [] (.error .CrcError) (.ok [])).2.2.2.1 rfl⟩

/-- C10: the decode result of `Extended::decode_extended` depends on the
checks mask only through its ACK and CRC bits — any two masks agreeing on
those two bits (in particular a mask with and without the LENGTH bit) decode
every stream identically — and every successful decode returns exactly the
simple-packet payload bytes from index 2 through `len - 3`, excluding the id
byte, the ACK-position byte (even when the ACK check is disabled) and the
two trailing CRC bytes. -/
theorem c10_data_extraction :
    (∀ (stream : List Nat) (ca cb : Nat),
      VexExtPacketChecks.contains ca VexExtPacketChecks.ACK
        = VexExtPacketChecks.contains cb VexExtPacketChecks.ACK →
      VexExtPacketChecks.contains ca VexExtPacketChecks.CRC
        = VexExtPacketChecks.contains cb VexExtPacketChecks.CRC →
      Extended.decode_extended stream ca = Extended.decode_extended stream cb) ∧
    (∀ (stream : List Nat) (checks : Nat) (resp : ExtendedResponse) (sresp : SimpleResponse),
      Simple.decode_stream stream = .ok sresp →
      Extended.decode_extended stream checks = .ok resp →
      resp.payload = (sresp.payload.drop 2).take (sresp.payload.length - 4)) := by
  constructor
  · intro stream ca cb hA hC
    unfold Extended.decode_extended
    rw [hA, hC]
  · intro stream checks resp sresp hS hE
    simp only [Extended.decode_extended, hS] at hE
    split at hE
    · exact absurd hE (by simp)
    · split at hE
      · exact absurd hE (by simp)
      · split at hE
        · exact absurd hE (by simp)
        · split at hE
          · exact absurd hE (by simp)
          · rename_i heq
            split at hE
            · exact absurd hE (by simp)
            · rename_i payload hslice
              have hr : resp = ⟨_, payload⟩ := (Except.ok.inj hE).symm
              unfold sliceGet at hslice
              split at hslice
              · have hp := Option.some.inj hslice
                rw [hr]
                rw [← hp]
                rw [Nat.sub_sub]
              · exact absurd hslice (by simp)

/-- C10 (witness): the LENGTH-only mask 4 decodes like the empty mask 0, and
the extracted data of a concrete decode is the payload slice from index 2
excluding the two trailing bytes. -/
theorem c10_data_extraction_witness :
    Extended.decode_extended plainExtStream 4 = Extended.decode_extended plainExtStream 0 ∧
    (ExtendedResponse.mk 0x2e [0x68, 0x69]).payload
      = ((SimpleResponse.mk 0x56 [0x2e, 0x76, 0x68, 0x69, 0x00, 0x00]
          ([0xAA, 0x55, 0x56, 0x06] ++ [0x2e, 0x76, 0x68, 0x69, 0x00, 0x00])).payload.drop 2).take
          ((SimpleResponse.mk 0x56 [0x2e, 0x76, 0x68, 0x69, 0x00, 0x00]
          ([0xAA, 0x55, 0x56, 0x06] ++ [0x2e, 0x76, 0x68, 0x69, 0x00, 0x00])).payload.length - 4) :=
  ⟨c10_data_extraction.1 plainExtStream 4 0 (by decide) (by decide),
   c10_data_extraction.2 plainExtStream 0 ⟨0x2e, [0x68, 0x69]⟩
     ⟨0x56, [0x2e, 0x76, 0x68, 0x69, 0x00, 0x00],
      [0xAA, 0x55, 0x56, 0x06] ++ [0x2e, 0x76, 0x68, 0x69, 0x00, 0x00]⟩
     (by decide) (by decide)⟩

end VexV5
